import Mathlib

/-!
Shallow embedding of the storefront SDK's hybrid local/remote collection
engine: the cart resource (src/unnamed/part_011), the wishlist resource
(src/src/resources/wishlist.ts) and the event emitter (src/src/events.ts).

Modelling conventions:
* JS numbers carrying prices/quantities are `Int`; timestamps (`Date.now`,
  `new Date().toISOString()`) are `Nat` values passed in explicitly through a
  per-call environment, one timestamp per top-level engine call; generated ids
  (`generateItemId`, `generateCartId`) are `String` values in the same
  environment.
* `BrowserStorage` is an `Option` of the stored collection (value semantics).
* The wishlist's remote generic store is a second `Option Wishlist` component;
  a per-call Boolean `reachable` models whether the network calls of that
  engine call succeed, and `hasUser` models whether `userId` is configured.
  A failed or user-less remote fetch yields `none`, exactly like
  `getRemoteWishlist` returning `null` / throwing into the `catch`.
* Every engine call returns the value the method returns, the poststate of the
  stores, and the list of events emitted during the call, in order.
-/

structure Product where
  id : Nat
  title : String
  price : Int
  deriving Repr, DecidableEq

structure CartItem where
  id : String
  product : Product
  quantity : Int
  price : Int
  deriving Repr, DecidableEq

structure Cart where
  id : String
  items : List CartItem
  subtotal : Int
  total_items : Int
  created_at : Nat
  updated_at : Nat
  deriving Repr, DecidableEq

structure WishlistItem where
  id : String
  product : Product
  added_at : Nat
  deriving Repr, DecidableEq

structure Wishlist where
  items : List WishlistItem
  total_items : Nat
  updated_at : Nat
  deriving Repr, DecidableEq

/-- `reduce((acc, item) => acc + f(item), 0)` over a list, as in the source's
aggregate computations. -/
def sumBy (f : α → Int) (l : List α) : Int :=
  l.foldl (fun acc x => acc + f x) 0

namespace CartResource

/-- Events emitted by the cart resource, one constructor per topic. -/
inductive CartEvent where
  | itemAdded (item : CartItem) (cart : Cart)
  | itemUpdated (item : CartItem) (cart : Cart)
  | itemRemoved (itemId : String) (cart : Cart)
  | cleared (cart : Cart)
  deriving Repr, DecidableEq

/-- Per-call environment: the timestamp all `new Date()` calls of the engine
call observe, and the fresh ids `generateItemId` / `generateCartId` produce. -/
structure CartEnv where
  now : Nat
  itemId : String
  cartId : String
  deriving Repr, DecidableEq

/-- Result of one engine call: returned cart, storage poststate, events. -/
structure CartResult where
  returned : Cart
  stored : Option Cart
  events : List CartEvent
  deriving Repr, DecidableEq

/-- `createEmptyCart` of the source. -/
def createEmptyCart (now : Nat) (cartId : String) : Cart :=
  { id := cartId, items := [], subtotal := 0, total_items := 0,
    created_at := now, updated_at := now }

/-- `get()`: purely local — the stored cart, or a fresh empty cart. -/
def get (storage : Option Cart) (now : Nat) (cartId : String) : Cart :=
  match storage with
  | none => createEmptyCart now cartId
  | some cart => cart

/-- `updateCartTotals`: recompute `subtotal` and `total_items` from the item
list and refresh `updated_at`. -/
def updateCartTotals (cart : Cart) (now : Nat) : Cart :=
  { cart with
    subtotal := sumBy (fun item => item.price * item.quantity) cart.items
    total_items := sumBy (fun item => item.quantity) cart.items
    updated_at := now }

/-- `findIndex` on the product id followed by the in-place update of
`addItem`'s existing-item branch: bump the quantity, overwrite the price.
Returns the updated list together with the updated entry (the value the
source reads back out of `cart.items[existingItemIndex]` for the event). -/
def addMerge (pid : Nat) (price : Int) (quantity : Int) :
    List CartItem → Option (List CartItem × CartItem)
  | [] => none
  | item :: rest =>
    if item.product.id == pid then
      let upd := { item with quantity := item.quantity + quantity, price := price }
      some (upd :: rest, upd)
    else
      match addMerge pid price quantity rest with
      | some (rest', upd) => some (item :: rest', upd)
      | none => none

/-- `addItem(product, quantity = 1)`. -/
def addItem (product : Product) (quantity : Int) (storage : Option Cart)
    (env : CartEnv) : CartResult :=
  let cart := get storage env.now env.cartId
  match addMerge product.id product.price quantity cart.items with
  | some (items, upd) =>
    let updatedCart := updateCartTotals { cart with items := items } env.now
    { returned := updatedCart, stored := some updatedCart,
      events := [CartEvent.itemAdded upd updatedCart] }
  | none =>
    let newItem : CartItem :=
      { id := env.itemId, product := product, quantity := quantity,
        price := product.price }
    let items := cart.items ++ [newItem]
    let updatedCart := updateCartTotals { cart with items := items } env.now
    { returned := updatedCart, stored := some updatedCart,
      events := [CartEvent.itemAdded newItem updatedCart] }

/-- `removeItem(itemId)`: only acts when `find` succeeds; otherwise returns
the current cart with no store write and no event. -/
def removeItem (itemId : String) (storage : Option Cart) (env : CartEnv) :
    CartResult :=
  let cart := get storage env.now env.cartId
  match cart.items.find? (fun item => item.id == itemId) with
  | some _ =>
    let items := cart.items.filter (fun item => !(item.id == itemId))
    let updatedCart := updateCartTotals { cart with items := items } env.now
    { returned := updatedCart, stored := some updatedCart,
      events := [CartEvent.itemRemoved itemId updatedCart] }
  | none => { returned := cart, stored := storage, events := [] }

/-- `findIndex` on the entry id followed by `items[i].quantity = quantity`,
returning the updated list and the updated entry. -/
def setQty (itemId : String) (quantity : Int) :
    List CartItem → Option (List CartItem × CartItem)
  | [] => none
  | item :: rest =>
    if item.id == itemId then
      let upd := { item with quantity := quantity }
      some (upd :: rest, upd)
    else
      match setQty itemId quantity rest with
      | some (rest', upd) => some (item :: rest', upd)
      | none => none

/-- `updateItemQuantity(itemId, quantity)`: `quantity <= 0` delegates to
`removeItem`; an absent entry id leaves everything unchanged. -/
def updateItemQuantity (itemId : String) (quantity : Int)
    (storage : Option Cart) (env : CartEnv) : CartResult :=
  if quantity ≤ 0 then
    removeItem itemId storage env
  else
    let cart := get storage env.now env.cartId
    match setQty itemId quantity cart.items with
    | some (items, upd) =>
      let updatedCart := updateCartTotals { cart with items := items } env.now
      { returned := updatedCart, stored := some updatedCart,
        events := [CartEvent.itemUpdated upd updatedCart] }
    | none => { returned := cart, stored := storage, events := [] }

/-- `removeProduct(productId)`. -/
def removeProduct (productId : Nat) (storage : Option Cart) (env : CartEnv) :
    CartResult :=
  let cart := get storage env.now env.cartId
  match cart.items.find? (fun item => item.product.id == productId) with
  | some itemToRemove => removeItem itemToRemove.id storage env
  | none => { returned := cart, stored := storage, events := [] }

/-- `clear()`. -/
def clear (storage : Option Cart) (env : CartEnv) : CartResult :=
  let emptyCart := createEmptyCart env.now env.cartId
  { returned := emptyCart, stored := some emptyCart,
    events := [CartEvent.cleared emptyCart] }

end CartResource

namespace WishlistResource

/-- Events emitted by the wishlist resource, one constructor per topic. -/
inductive WishEvent where
  | itemAdded (item : WishlistItem) (wishlist : Wishlist)
  | itemRemoved (itemId : String) (wishlist : Wishlist)
  | cleared (wishlist : Wishlist)
  deriving Repr, DecidableEq

/-- Combined state the wishlist resource acts on: the browser storage value
and the remote generic record for `(wishlist_userId, kind 2)`. -/
structure WishState where
  localStore : Option Wishlist
  remoteStore : Option Wishlist
  deriving Repr, DecidableEq

/-- Per-call environment: whether `userId` is configured, whether the remote
generic API calls of this engine call succeed, the timestamp every
`new Date()` of the call observes, and the id `generateItemId` produces. -/
structure WishEnv where
  hasUser : Bool
  reachable : Bool
  now : Nat
  itemId : String
  deriving Repr, DecidableEq

/-- Result of one engine call: returned wishlist, poststate, events. -/
structure WishResult where
  returned : Wishlist
  state : WishState
  events : List WishEvent
  deriving Repr, DecidableEq

/-- `createEmptyWishlist`. -/
def createEmptyWishlist (now : Nat) : Wishlist :=
  { items := [], total_items := 0, updated_at := now }

/-- `getRemoteWishlist`: `null` when no user id is configured, when the call
fails, or when no record exists; otherwise the stored remote snapshot. -/
def getRemoteWishlist (st : WishState) (env : WishEnv) : Option Wishlist :=
  if env.hasUser && env.reachable then st.remoteStore else none

/-- `get()`: remote first — on success the remote snapshot overwrites the
local store and is returned; otherwise the local value, or a fresh empty
wishlist when the store is empty (the empty value is not persisted). -/
def get (st : WishState) (env : WishEnv) : Wishlist × WishState :=
  match getRemoteWishlist st env with
  | some remoteWishlist => (remoteWishlist, { st with localStore := some remoteWishlist })
  | none =>
    match st.localStore with
    | none => (createEmptyWishlist env.now, st)
    | some localWishlist => (localWishlist, st)

/-- `getLocal()`. -/
def getLocal (st : WishState) (now : Nat) : Wishlist :=
  match st.localStore with
  | none => createEmptyWishlist now
  | some localWishlist => localWishlist

/-- `saveToRemote`: a no-op without a user id; the post succeeds exactly when
the remote is reachable, failure is caught and swallowed. -/
def saveToRemote (st : WishState) (wishlist : Wishlist) (env : WishEnv) :
    WishState :=
  if env.hasUser && env.reachable then { st with remoteStore := some wishlist }
  else st

/-- `updateWishlistMeta`: recompute `total_items` from the item list and
refresh `updated_at`. -/
def updateWishlistMeta (wishlist : Wishlist) (now : Nat) : Wishlist :=
  { wishlist with total_items := wishlist.items.length, updated_at := now }

/-- `hasProduct(productId)` — reads through `get()` and therefore may touch
the remote store. Returns the answer together with the poststate. -/
def hasProduct (productId : Nat) (st : WishState) (env : WishEnv) :
    Bool × WishState :=
  let p := get st env
  (p.1.items.any (fun item => item.product.id == productId), p.2)

/-- `addItem(product)`: one `get()` for the working wishlist, a second
`get()` inside `hasProduct` for the membership check; early return without
any write or event when the product is already present. -/
def addItem (product : Product) (st : WishState) (env : WishEnv) :
    WishResult :=
  let g := get st env
  let wishlist := g.1
  let h := hasProduct product.id g.2 env
  if h.1 then
    { returned := wishlist, state := h.2, events := [] }
  else
    let newItem : WishlistItem :=
      { id := env.itemId, product := product, added_at := env.now }
    let updatedWishlist :=
      updateWishlistMeta { wishlist with items := wishlist.items ++ [newItem] } env.now
    let st2 := saveToRemote { h.2 with localStore := some updatedWishlist }
      updatedWishlist env
    { returned := updatedWishlist, state := st2,
      events := [WishEvent.itemAdded newItem updatedWishlist] }

/-- `removeItem(itemId)`: filters unconditionally, recomputes metadata,
writes both stores and emits — also when the id is absent. -/
def removeItem (itemId : String) (st : WishState) (env : WishEnv) :
    WishResult :=
  let g := get st env
  let wishlist := g.1
  let items := wishlist.items.filter (fun item => !(item.id == itemId))
  let updatedWishlist := updateWishlistMeta { wishlist with items := items } env.now
  let st2 := saveToRemote { g.2 with localStore := some updatedWishlist }
    updatedWishlist env
  { returned := updatedWishlist, state := st2,
    events := [WishEvent.itemRemoved itemId updatedWishlist] }

/-- `removeProduct(productId)`. -/
def removeProduct (productId : Nat) (st : WishState) (env : WishEnv) :
    WishResult :=
  let g := get st env
  let wishlist := g.1
  match wishlist.items.find? (fun item => item.product.id == productId) with
  | some itemToRemove => removeItem itemToRemove.id g.2 env
  | none => { returned := wishlist, state := g.2, events := [] }

/-- `toggleProduct(product)`: membership check through `hasProduct`, then
either `removeProduct` or `addItem`; the Boolean is the `added` flag of the
returned object. -/
def toggleProduct (product : Product) (st : WishState) (env : WishEnv) :
    WishResult × Bool :=
  let h := hasProduct product.id st env
  if h.1 then (removeProduct product.id h.2 env, false)
  else (addItem product h.2 env, true)

/-- `clear()`: does not read first; writes a fresh empty wishlist. -/
def clear (st : WishState) (env : WishEnv) : WishResult :=
  let emptyWishlist := createEmptyWishlist env.now
  let st1 := saveToRemote { st with localStore := some emptyWishlist }
    emptyWishlist env
  { returned := emptyWishlist, state := st1,
    events := [WishEvent.cleared emptyWishlist] }

/-- Stable insertion of one element into a sorted list (`le` is the Boolean
form of the comparator returning a non-positive number). -/
def insertSorted (le : α → α → Bool) (x : α) : List α → List α
  | [] => [x]
  | y :: ys => if le x y then x :: y :: ys else y :: insertSorted le x ys

/-- Stable sort modelling `Array.prototype.sort` with a comparator. -/
def sortItems (le : α → α → Bool) : List α → List α
  | [] => []
  | x :: xs => insertSorted le x (sortItems le xs)

/-- `sort(compareFn)`: reorders, recomputes metadata, persists to both
stores, emits no event at all. -/
def sort (le : WishlistItem → WishlistItem → Bool) (st : WishState)
    (env : WishEnv) : WishResult :=
  let g := get st env
  let wishlist := g.1
  let items := sortItems le wishlist.items
  let updatedWishlist := updateWishlistMeta { wishlist with items := items } env.now
  let st2 := saveToRemote { g.2 with localStore := some updatedWishlist }
    updatedWishlist env
  { returned := updatedWishlist, state := st2, events := [] }

end WishlistResource

namespace EventEmitter

/-- Handlers are identified by an id; a handler's observable effect on the
emitter is the list of subscription actions it performs when invoked. -/
abbrev HandlerId := Nat

/-- State of the emitter: `Map<string, Set<EventHandler>>`, as an association
list in key insertion order, each handler set as a duplicate-free list in
insertion order. -/
structure Emitter where
  events : List (String × List HandlerId)
  deriving Repr, DecidableEq

/-- `events.get(topic)`. -/
def getHandlers (e : Emitter) (topic : String) : Option (List HandlerId) :=
  (e.events.find? (fun p => p.1 == topic)).map (fun p => p.2)

/-- `events.set(topic, hs)`: replace in place, or append a new key. -/
def setEntry : List (String × List HandlerId) → String → List HandlerId →
    List (String × List HandlerId)
  | [], topic, hs => [(topic, hs)]
  | (t, old) :: rest, topic, hs =>
    if t == topic then (topic, hs) :: rest else (t, old) :: setEntry rest topic hs

/-- `events.delete(topic)`. -/
def delEntry : List (String × List HandlerId) → String →
    List (String × List HandlerId)
  | [], _ => []
  | (t, old) :: rest, topic =>
    if t == topic then rest else (t, old) :: delEntry rest topic

/-- `on(event, handler)`: create the set on demand, then `Set.add` — an
append when absent, a no-op when the handler is already registered. -/
def on' (e : Emitter) (topic : String) (h : HandlerId) : Emitter :=
  match getHandlers e topic with
  | none => ⟨setEntry e.events topic [h]⟩
  | some hs =>
    if hs.contains h then e else ⟨setEntry e.events topic (hs ++ [h])⟩

/-- `off(event, handler)`: `Set.delete`, dropping the topic entry when the
set becomes empty. -/
def off (e : Emitter) (topic : String) (h : HandlerId) : Emitter :=
  match getHandlers e topic with
  | none => e
  | some hs =>
    let hs' := hs.erase h
    if hs'.isEmpty then ⟨delEntry e.events topic⟩ else ⟨setEntry e.events topic hs'⟩

/-- `listenerCount(event)`. -/
def listenerCount (e : Emitter) (topic : String) : Nat :=
  match getHandlers e topic with
  | none => 0
  | some hs => hs.length

/-- Subscription actions a running handler may perform on the emitter. -/
inductive EAction where
  | register (topic : String) (h : HandlerId)
  | unregister (topic : String) (h : HandlerId)
  deriving Repr, DecidableEq

def applyAction (e : Emitter) : EAction → Emitter
  | EAction.register topic h => on' e topic h
  | EAction.unregister topic h => off e topic h

def applyActions (acts : List EAction) (e : Emitter) : Emitter :=
  acts.foldl applyAction e

/-- `emit`'s `handlers.forEach` loop under the live-set semantics of JS
`Set.prototype.forEach`: values are visited in insertion order, a value
added to the set during iteration is visited in the same pass, a value
deleted before being reached is skipped. `visited` records the values
already visited, `log` the invocation order. The fuel bounds the number of
iterations (a handler chain that keeps registering fresh handlers loops
forever in the source as well); every theorem below supplies enough fuel
for the loop to reach its fixed point. -/
def emitLoop (behavior : HandlerId → List EAction) (topic : String) :
    Nat → Emitter → List HandlerId → List HandlerId → Emitter × List HandlerId
  | 0, e, _, log => (e, log)
  | fuel + 1, e, visited, log =>
    match ((getHandlers e topic).getD []).find? (fun h => !(visited.contains h)) with
    | none => (e, log)
    | some h =>
      let e' := applyActions (behavior h) e
      emitLoop behavior topic fuel e' (visited ++ [h]) (log ++ [h])

/-- `emit(event, data)` with the invoked handlers' effects given by
`behavior`; returns the emitter poststate and the handler invocation log. -/
def emit (behavior : HandlerId → List EAction) (topic : String) (fuel : Nat)
    (e : Emitter) : Emitter × List HandlerId :=
  emitLoop behavior topic fuel e [] []

end EventEmitter

/-! ## Aggregate invariants and mutation traces -/

/-- Aggregate purity for a cart: the derived fields are the pure function of
the entry sequence. -/
def cartAggOK (cart : Cart) : Prop :=
  cart.total_items = sumBy (fun item => item.quantity) cart.items ∧
  cart.subtotal = sumBy (fun item => item.price * item.quantity) cart.items

/-- Aggregate purity for an optional stored cart. -/
def cartStoreOK (storage : Option Cart) : Prop :=
  ∀ cart, storage = some cart → cartAggOK cart

/-- Aggregate purity for a wishlist. -/
def wishAggOK (wishlist : Wishlist) : Prop :=
  wishlist.total_items = wishlist.items.length

/-- Aggregate purity for both components of a wishlist state. -/
def wishStateOK (st : WishlistResource.WishState) : Prop :=
  (∀ w, st.localStore = some w → wishAggOK w) ∧
  (∀ w, st.remoteStore = some w → wishAggOK w)

namespace CartResource

/-- One cart mutation, as named by the spec's mutation contracts. -/
inductive CartOp where
  | addItem (product : Product) (quantity : Int)
  | removeItem (itemId : String)
  | updateItemQuantity (itemId : String) (quantity : Int)
  | removeProduct (productId : Nat)
  | clear
  deriving Repr, DecidableEq

/-- Dispatch one mutation against the storage. -/
def cartApply : CartOp → Option Cart → CartEnv → CartResult
  | CartOp.addItem product quantity, storage, env => addItem product quantity storage env
  | CartOp.removeItem itemId, storage, env => removeItem itemId storage env
  | CartOp.updateItemQuantity itemId quantity, storage, env =>
      updateItemQuantity itemId quantity storage env
  | CartOp.removeProduct productId, storage, env => removeProduct productId storage env
  | CartOp.clear, storage, env => clear storage env

/-- After every single step of the mutation sequence, the returned cart and
the stored cart satisfy aggregate purity. -/
def cartTraceOK : List (CartOp × CartEnv) → Option Cart → Prop
  | [], _ => True
  | (op, env) :: rest, storage =>
    cartAggOK (cartApply op storage env).returned ∧
    cartStoreOK (cartApply op storage env).stored ∧
    cartTraceOK rest (cartApply op storage env).stored

end CartResource

namespace WishlistResource

/-- One wishlist mutation. -/
inductive WishOp where
  | addItem (product : Product)
  | removeItem (itemId : String)
  | removeProduct (productId : Nat)
  | toggleProduct (product : Product)
  | clear
  | sort (le : WishlistItem → WishlistItem → Bool)

/-- Dispatch one mutation against the wishlist state. -/
def wishApply : WishOp → WishState → WishEnv → WishResult
  | WishOp.addItem product, st, env => addItem product st env
  | WishOp.removeItem itemId, st, env => removeItem itemId st env
  | WishOp.removeProduct productId, st, env => removeProduct productId st env
  | WishOp.toggleProduct product, st, env => (toggleProduct product st env).1
  | WishOp.clear, st, env => clear st env
  | WishOp.sort le, st, env => sort le st env

/-- After every single step of the mutation sequence, the returned wishlist
and both stores satisfy aggregate purity. -/
def wishTraceOK : List (WishOp × WishEnv) → WishState → Prop
  | [], _ => True
  | (op, env) :: rest, st =>
    wishAggOK (wishApply op st env).returned ∧
    wishStateOK (wishApply op st env).state ∧
    wishTraceOK rest (wishApply op st env).state

end WishlistResource

/-! ## Derived pure observations and concrete fixtures -/

/-- Pure membership of a product id in a wishlist (the body of
`hasProduct` applied to a given wishlist value). -/
def containsProduct (wishlist : Wishlist) (productId : Nat) : Bool :=
  wishlist.items.any (fun item => item.product.id == productId)

/-- Number of entries of a wishlist carrying a given product id. -/
def countProduct (wishlist : Wishlist) (productId : Nat) : Nat :=
  (wishlist.items.filter (fun item => item.product.id == productId)).length

/-- Number of entries of a cart carrying a given product id. -/
def countCartProduct (cart : Cart) (productId : Nat) : Nat :=
  (cart.items.filter (fun item => item.product.id == productId)).length

/-- A handler behavior where handler 0 registers handler 1 on topic "t"
while running, and every other handler does nothing. -/
def regBehavior : EventEmitter.HandlerId → List EventEmitter.EAction :=
  fun h => if h == 0 then [EventEmitter.EAction.register "t" 1] else []

/-- Emitter with the single handler 0 registered on topic "t". -/
def emitterT0 : EventEmitter.Emitter := ⟨[("t", [0])]⟩

/-- Fixture product. -/
def prodA : Product := { id := 1, title := "alpha", price := 2 }

/-- Second fixture product. -/
def prodB : Product := { id := 2, title := "beta", price := 3 }

/-- A one-entry wishlist with timestamp 0. -/
def wishOneA : Wishlist :=
  { items := [{ id := "a", product := prodA, added_at := 0 }],
    total_items := 1, updated_at := 0 }

/-- A two-entry wishlist with timestamp 0. -/
def wishTwoAB : Wishlist :=
  { items := [{ id := "a", product := prodA, added_at := 0 },
              { id := "b", product := prodB, added_at := 0 }],
    total_items := 2, updated_at := 0 }

/-- An empty wishlist value with timestamp 0. -/
def wishEmpty0 : Wishlist := { items := [], total_items := 0, updated_at := 0 }

/-! ## Helper lemmas -/

theorem foldl_add_shift (f : α → Int) (l : List α) (c : Int) :
    l.foldl (fun acc x => acc + f x) c = c + l.foldl (fun acc x => acc + f x) 0 := by
  induction l generalizing c with
  | nil => simp
  | cons x xs ih =>
    rw [List.foldl_cons, List.foldl_cons, ih (c + f x), ih (0 + f x)]
    omega

theorem sumBy_cons (f : α → Int) (x : α) (l : List α) :
    sumBy f (x :: l) = f x + sumBy f l := by
  unfold sumBy
  rw [List.foldl_cons, foldl_add_shift]
  omega

theorem sumBy_append (f : α → Int) (l₁ l₂ : List α) :
    sumBy f (l₁ ++ l₂) = sumBy f l₁ + sumBy f l₂ := by
  induction l₁ with
  | nil => simp [sumBy]
  | cons x xs ih => rw [List.cons_append, sumBy_cons, sumBy_cons, ih]; omega

theorem find?_eq_head?_filter (p : α → Bool) (l : List α) :
    l.find? p = (l.filter p).head? := by
  induction l with
  | nil => rfl
  | cons x xs ih =>
    cases h : p x with
    | true => simp [List.find?_cons, List.filter_cons, h]
    | false =>
      rw [List.find?_cons, List.filter_cons]
      simp only [h]
      exact ih

/-! ## C7: quantity-zero normalization -/

/-- C7: for every cart state, entry id and quantity `q <= 0`,
`updateItemQuantity(entryId, q)` produces exactly the same result record —
returned collection, persisted local state and published events — as
`removeItem(entryId)` on that state. -/
theorem updateItemQuantity_nonpos_eq_removeItem
    (itemId : String) (quantity : Int) (storage : Option Cart)
    (env : CartResource.CartEnv) (h : quantity ≤ 0) :
    CartResource.updateItemQuantity itemId quantity storage env =
      CartResource.removeItem itemId storage env := by
  unfold CartResource.updateItemQuantity
  rw [if_pos h]

/-- Witness for C7 at quantity 0 on a concrete one-item cart. -/
theorem updateItemQuantity_nonpos_eq_removeItem_witness :
    (0 : Int) ≤ 0 ∧
    CartResource.updateItemQuantity "i1" 0
        (some { id := "c", items := [{ id := "i1", product := prodA, quantity := 2, price := 2 }],
                subtotal := 4, total_items := 2, created_at := 0, updated_at := 0 })
        { now := 1, itemId := "j", cartId := "d" } =
      CartResource.removeItem "i1"
        (some { id := "c", items := [{ id := "i1", product := prodA, quantity := 2, price := 2 }],
                subtotal := 4, total_items := 2, created_at := 0, updated_at := 0 })
        { now := 1, itemId := "j", cartId := "d" } :=
  ⟨le_refl 0,
   updateItemQuantity_nonpos_eq_removeItem "i1" 0
     (some { id := "c", items := [{ id := "i1", product := prodA, quantity := 2, price := 2 }],
             subtotal := 4, total_items := 2, created_at := 0, updated_at := 0 })
     { now := 1, itemId := "j", cartId := "d" } (le_refl 0)⟩

/-! ## C2: read contract of get() -/

/-- C2: the cart engine's `get()` (which has no owner identity at all)
returns the stored local value, or a fresh empty cart when none exists; the
wishlist engine's `get()` returns the remote snapshot and overwrites (not
merges) the local store with it whenever the remote fetch succeeds, and on
any failure — no owner identity, unreachable backend or absent record —
returns the existing local value (the `getLocal` view), synthesizing an
empty wishlist when the local store is empty, leaving the state untouched;
in particular with a seeded local store and a failing remote backend it
returns exactly the seeded local entries. -/
theorem get_read_contract :
    (∀ (cart : Cart) (now : Nat) (cartId : String),
      CartResource.get (some cart) now cartId = cart) ∧
    (∀ (now : Nat) (cartId : String),
      CartResource.get none now cartId = CartResource.createEmptyCart now cartId) ∧
    (∀ (st : WishlistResource.WishState) (env : WishlistResource.WishEnv)
        (w : Wishlist), WishlistResource.getRemoteWishlist st env = some w →
      WishlistResource.get st env = (w, { st with localStore := some w })) ∧
    (∀ (st : WishlistResource.WishState) (env : WishlistResource.WishEnv),
      WishlistResource.getRemoteWishlist st env = none →
      WishlistResource.get st env = (WishlistResource.getLocal st env.now, st)) ∧
    (∀ (st : WishlistResource.WishState) (env : WishlistResource.WishEnv)
        (w : Wishlist), env.reachable = false → st.localStore = some w →
      (WishlistResource.get st env).1 = w) := by
  refine ⟨fun cart now cartId => rfl, fun now cartId => rfl, ?_, ?_, ?_⟩
  · intro st env w h
    unfold WishlistResource.get
    rw [h]
  · intro st env h
    unfold WishlistResource.get WishlistResource.getLocal
    rw [h]
    cases st.localStore <;> rfl
  · intro st env w hre hloc
    unfold WishlistResource.get WishlistResource.getRemoteWishlist
    rw [hre]
    simp [hloc]

/-- Witness for C2: a local store pre-seeded with 2 entries and a remote
backend configured to fail — `get()` returns the 2 local entries. -/
theorem get_read_contract_witness :
    WishlistResource.getRemoteWishlist
        { localStore := some wishTwoAB, remoteStore := some wishEmpty0 }
        { hasUser := true, reachable := false, now := 9, itemId := "z" } = none ∧
    WishlistResource.get
        { localStore := some wishTwoAB, remoteStore := some wishEmpty0 }
        { hasUser := true, reachable := false, now := 9, itemId := "z" } =
      (WishlistResource.getLocal
        { localStore := some wishTwoAB, remoteStore := some wishEmpty0 } 9,
       { localStore := some wishTwoAB, remoteStore := some wishEmpty0 }) ∧
    (WishlistResource.get
        { localStore := some wishTwoAB, remoteStore := some wishEmpty0 }
        { hasUser := true, reachable := false, now := 9, itemId := "z" }).1 =
      wishTwoAB ∧
    wishTwoAB.items.length = 2 := by
  refine ⟨rfl, ?_, ?_, rfl⟩
  · exact get_read_contract.2.2.2.1
      { localStore := some wishTwoAB, remoteStore := some wishEmpty0 }
      { hasUser := true, reachable := false, now := 9, itemId := "z" } rfl
  · exact get_read_contract.2.2.2.2
      { localStore := some wishTwoAB, remoteStore := some wishEmpty0 }
      { hasUser := true, reachable := false, now := 9, itemId := "z" }
      wishTwoAB rfl rfl

theorem wish_get_idem (st : WishlistResource.WishState)
    (env : WishlistResource.WishEnv) :
    WishlistResource.get (WishlistResource.get st env).2 env =
      WishlistResource.get st env := by
  obtain ⟨l, r⟩ := st
  unfold WishlistResource.get WishlistResource.getRemoteWishlist
  cases hflag : env.hasUser && env.reachable with
  | false => cases l <;> simp
  | true => cases r <;> cases l <;> simp

theorem wish_get_remote_eq (st : WishlistResource.WishState)
    (env : WishlistResource.WishEnv) :
    (WishlistResource.get st env).2.remoteStore = st.remoteStore := by
  obtain ⟨l, r⟩ := st
  unfold WishlistResource.get WishlistResource.getRemoteWishlist
  cases env.hasUser && env.reachable with
  | false => cases l <;> rfl
  | true => cases r <;> cases l <;> rfl

theorem addItem_events_count (p : Product) (q : Int) (storage : Option Cart)
    (env : CartResource.CartEnv) :
    (CartResource.addItem p q storage env).events.length = 1 := by
  simp only [CartResource.addItem]
  split <;> rfl

theorem removeItem_events_count (itemId : String) (storage : Option Cart)
    (env : CartResource.CartEnv) :
    (CartResource.removeItem itemId storage env).events.length =
      if ((CartResource.get storage env.now env.cartId).items.find?
            (fun item => item.id == itemId)).isSome = true then 1 else 0 := by
  simp only [CartResource.removeItem]
  split <;> rename_i h <;> simp [h]

theorem updateItemQuantity_events_count (itemId : String) (q : Int)
    (storage : Option Cart) (env : CartResource.CartEnv) :
    (CartResource.updateItemQuantity itemId q storage env).events.length =
      if q ≤ 0 then
        (if ((CartResource.get storage env.now env.cartId).items.find?
              (fun item => item.id == itemId)).isSome = true then 1 else 0)
      else
        (if (CartResource.setQty itemId q
              (CartResource.get storage env.now env.cartId).items).isSome = true
         then 1 else 0) := by
  by_cases hq : q ≤ 0
  · rw [if_pos hq]
    simp only [CartResource.updateItemQuantity, if_pos hq]
    exact removeItem_events_count itemId storage env
  · rw [if_neg hq]
    simp only [CartResource.updateItemQuantity, if_neg hq]
    split <;> rename_i h <;> simp [h]

theorem clear_events_count (storage : Option Cart) (env : CartResource.CartEnv) :
    (CartResource.clear storage env).events.length = 1 := rfl

theorem wish_addItem_events_count (p : Product)
    (st : WishlistResource.WishState) (env : WishlistResource.WishEnv) :
    (WishlistResource.addItem p st env).events.length =
      if containsProduct (WishlistResource.get st env).1 p.id = true then 0
      else 1 := by
  simp only [WishlistResource.addItem, WishlistResource.hasProduct,
    wish_get_idem, containsProduct]
  split <;> rename_i h <;> simp at h <;> simp [h]

theorem wish_removeItem_events_count (itemId : String)
    (st : WishlistResource.WishState) (env : WishlistResource.WishEnv) :
    (WishlistResource.removeItem itemId st env).events.length = 1 := rfl

theorem wish_clear_events_count (st : WishlistResource.WishState)
    (env : WishlistResource.WishEnv) :
    (WishlistResource.clear st env).events.length = 1 := rfl

theorem wish_sort_no_events (le : WishlistItem → WishlistItem → Bool)
    (st : WishlistResource.WishState) (env : WishlistResource.WishEnv) :
    (WishlistResource.sort le st env).events = [] := rfl

/-! ## C3: event count per mutation -/

/-- C3 fails as stated: `removeItem` on the cart with an entry id that is not
present publishes zero events, not exactly one — here on the empty cart. -/
theorem event_count_counterexample :
    ¬ ((CartResource.removeItem "x" none
        { now := 0, itemId := "i", cartId := "c" }).events.length = 1) := by
  decide

/-- C3 amended: every state-changing mutation call publishes exactly one
change event on its topic, but the no-op calls publish zero: cart
`removeItem` and `updateItemQuantity` publish one event exactly when the
entry id is found (zero otherwise), wishlist `addItem` publishes zero when
the product is already present; cart `addItem`, wishlist `removeItem` (even
for an absent id) and both `clear`s always publish exactly one; `sort`
publishes no event at all. -/
theorem mutation_event_counts :
    (∀ (p : Product) (q : Int) (storage : Option Cart) (env : CartResource.CartEnv),
      (CartResource.addItem p q storage env).events.length = 1) ∧
    (∀ (itemId : String) (storage : Option Cart) (env : CartResource.CartEnv),
      (CartResource.removeItem itemId storage env).events.length =
        if ((CartResource.get storage env.now env.cartId).items.find?
              (fun item => item.id == itemId)).isSome = true then 1 else 0) ∧
    (∀ (itemId : String) (q : Int) (storage : Option Cart) (env : CartResource.CartEnv),
      (CartResource.updateItemQuantity itemId q storage env).events.length =
        if q ≤ 0 then
          (if ((CartResource.get storage env.now env.cartId).items.find?
                (fun item => item.id == itemId)).isSome = true then 1 else 0)
        else
          (if (CartResource.setQty itemId q
                (CartResource.get storage env.now env.cartId).items).isSome = true
           then 1 else 0)) ∧
    (∀ (storage : Option Cart) (env : CartResource.CartEnv),
      (CartResource.clear storage env).events.length = 1) ∧
    (∀ (p : Product) (st : WishlistResource.WishState) (env : WishlistResource.WishEnv),
      (WishlistResource.addItem p st env).events.length =
        if containsProduct (WishlistResource.get st env).1 p.id = true then 0
        else 1) ∧
    (∀ (itemId : String) (st : WishlistResource.WishState) (env : WishlistResource.WishEnv),
      (WishlistResource.removeItem itemId st env).events.length = 1) ∧
    (∀ (st : WishlistResource.WishState) (env : WishlistResource.WishEnv),
      (WishlistResource.clear st env).events.length = 1) ∧
    (∀ (le : WishlistItem → WishlistItem → Bool) (st : WishlistResource.WishState)
        (env : WishlistResource.WishEnv),
      (WishlistResource.sort le st env).events = []) :=
  ⟨addItem_events_count, removeItem_events_count, updateItemQuantity_events_count,
   clear_events_count, wish_addItem_events_count, wish_removeItem_events_count,
   wish_clear_events_count, wish_sort_no_events⟩

theorem saveToRemote_localStore (st : WishlistResource.WishState)
    (w : Wishlist) (env : WishlistResource.WishEnv) :
    (WishlistResource.saveToRemote st w env).localStore = st.localStore := by
  unfold WishlistResource.saveToRemote
  split <;> rfl

/-! ## C4: idempotent empty-remove -/

/-- C4 fails as stated on the wishlist: removing an absent entry id from a
one-entry wishlist returns a collection whose last-modified timestamp has
been refreshed, so it is not deep-equal to the pre-call collection, and the
stored local state has been rewritten. -/
theorem empty_remove_counterexample :
    ¬ (((WishlistResource.removeItem "zzz"
          { localStore := some wishOneA, remoteStore := none }
          { hasUser := false, reachable := false, now := 5, itemId := "z" }).returned
        = wishOneA) ∧
       ((WishlistResource.removeItem "zzz"
          { localStore := some wishOneA, remoteStore := none }
          { hasUser := false, reachable := false, now := 5, itemId := "z" }).state.localStore
        = some wishOneA)) := by
  decide

/-- C4 amended: on the cart, removing a non-existent entry id returns the
pre-call collection unchanged (every field, including the last-modified
timestamp), leaves the stored state untouched and emits nothing; on the
wishlist, removing a non-existent entry id leaves the entry sequence
unchanged but refreshes the last-modified timestamp, rewrites the stored
local state with the refreshed collection, and still emits one removed
event. -/
theorem empty_remove_behavior :
    (∀ (itemId : String) (storage : Option Cart) (env : CartResource.CartEnv),
      (CartResource.get storage env.now env.cartId).items.find?
          (fun item => item.id == itemId) = none →
      CartResource.removeItem itemId storage env =
        { returned := CartResource.get storage env.now env.cartId,
          stored := storage, events := [] }) ∧
    (∀ (itemId : String) (st : WishlistResource.WishState)
        (env : WishlistResource.WishEnv),
      (WishlistResource.get st env).1.items.find?
          (fun item => item.id == itemId) = none →
      (WishlistResource.removeItem itemId st env).returned.items =
          (WishlistResource.get st env).1.items ∧
      (WishlistResource.removeItem itemId st env).returned.updated_at = env.now ∧
      (WishlistResource.removeItem itemId st env).state.localStore =
          some (WishlistResource.removeItem itemId st env).returned ∧
      (WishlistResource.removeItem itemId st env).events.length = 1) := by
  constructor
  · intro itemId storage env h
    simp only [CartResource.removeItem]
    rw [h]
  · intro itemId st env h
    have hall : ∀ item ∈ (WishlistResource.get st env).1.items,
        ¬ ((fun item => item.id == itemId) item = true) :=
      List.find?_eq_none.mp h
    have hfilter : (WishlistResource.get st env).1.items.filter
        (fun item => !(item.id == itemId)) = (WishlistResource.get st env).1.items := by
      rw [List.filter_eq_self]
      intro a ha
      simp only [Bool.not_eq_true']
      exact Bool.not_eq_true _ ▸ (by
        have := hall a ha
        simpa using this)
    refine ⟨?_, rfl, ?_, rfl⟩
    · simp only [WishlistResource.removeItem, WishlistResource.updateWishlistMeta,
        hfilter]
    · simp only [WishlistResource.removeItem, saveToRemote_localStore]

/-- Witness for C4 amended: an absent id on the empty cart and on a seeded
one-entry wishlist. -/
theorem empty_remove_behavior_witness :
    ((CartResource.get none 0 "c").items.find? (fun item => item.id == "x") = none ∧
      CartResource.removeItem "x" none { now := 0, itemId := "i", cartId := "c" } =
        { returned := CartResource.get none 0 "c", stored := none, events := [] }) ∧
    ((WishlistResource.get { localStore := some wishOneA, remoteStore := none }
          { hasUser := false, reachable := false, now := 5, itemId := "z" }).1.items.find?
          (fun item => item.id == "zzz") = none ∧
      (WishlistResource.removeItem "zzz"
          { localStore := some wishOneA, remoteStore := none }
          { hasUser := false, reachable := false, now := 5, itemId := "z" }).returned.items
        = (WishlistResource.get { localStore := some wishOneA, remoteStore := none }
          { hasUser := false, reachable := false, now := 5, itemId := "z" }).1.items) :=
  ⟨⟨by decide,
    empty_remove_behavior.1 "x" none { now := 0, itemId := "i", cartId := "c" }
      (by decide)⟩,
   ⟨by decide,
    (empty_remove_behavior.2 "zzz"
      { localStore := some wishOneA, remoteStore := none }
      { hasUser := false, reachable := false, now := 5, itemId := "z" }
      (by decide)).1⟩⟩

/-! ## C6: mutations and remote state -/

/-- C6 fails as stated: with an owner identity configured and a reachable
remote, `addItem` on the wishlist applies the mutation to the remote
snapshot pulled by its internal `get()`, so its result depends on the
Remote Collection Backend's contents — two states with the same local store
and different remote stores yield different results. -/
theorem mutation_remote_pull_counterexample :
    ¬ ((WishlistResource.addItem prodB
          { localStore := some wishOneA, remoteStore := some wishEmpty0 }
          { hasUser := true, reachable := true, now := 5, itemId := "z" }).returned =
        (WishlistResource.addItem prodB
          { localStore := some wishOneA, remoteStore := none }
          { hasUser := true, reachable := true, now := 5, itemId := "z" }).returned) := by
  decide

/-- C6 amended: cart mutations read local state only (the cart engine's
mutations and `get()` take no remote input at all); wishlist mutations go
through `get()`, so when no owner identity is configured or the remote
backend is unreachable their returned collection, persisted local state and
events are independent of the remote store's contents, but when an owner is
configured and the backend reachable the mutation is applied to the pulled
remote snapshot. -/
theorem mutation_remote_independence :
    (∀ (op : WishlistResource.WishOp) (l r r' : Option Wishlist)
        (env : WishlistResource.WishEnv),
      (env.hasUser && env.reachable) = false →
      (WishlistResource.wishApply op ⟨l, r⟩ env).returned =
        (WishlistResource.wishApply op ⟨l, r'⟩ env).returned ∧
      (WishlistResource.wishApply op ⟨l, r⟩ env).state.localStore =
        (WishlistResource.wishApply op ⟨l, r'⟩ env).state.localStore ∧
      (WishlistResource.wishApply op ⟨l, r⟩ env).events =
        (WishlistResource.wishApply op ⟨l, r'⟩ env).events) ∧
    (∀ (st : WishlistResource.WishState) (env : WishlistResource.WishEnv)
        (w : Wishlist),
      (env.hasUser && env.reachable) = true → st.remoteStore = some w →
      (WishlistResource.get st env).1 = w) := by
  constructor
  · intro op l r r' env hflag
    have hg : ∀ (rr : Option Wishlist), WishlistResource.get ⟨l, rr⟩ env =
        (WishlistResource.getLocal ⟨l, none⟩ env.now, ⟨l, rr⟩) := by
      intro rr
      unfold WishlistResource.get WishlistResource.getRemoteWishlist
        WishlistResource.getLocal
      rw [hflag]
      cases l <;> rfl
    have hs : ∀ (stl rr : Option Wishlist) (w : Wishlist),
        WishlistResource.saveToRemote ⟨stl, rr⟩ w env = ⟨stl, rr⟩ := by
      intro stl rr w
      unfold WishlistResource.saveToRemote
      rw [hflag]
      rfl
    cases op <;>
      simp only [WishlistResource.wishApply, WishlistResource.addItem,
        WishlistResource.removeItem, WishlistResource.removeProduct,
        WishlistResource.toggleProduct, WishlistResource.clear,
        WishlistResource.sort, WishlistResource.hasProduct, hg, hs] <;>
      first
        | (refine ⟨?_, ?_, ?_⟩ <;> trivial)
        | (split <;> simp only [hg, hs] <;>
            first
              | (refine ⟨?_, ?_, ?_⟩ <;> trivial)
              | (split <;> simp only [hg, hs] <;> refine ⟨?_, ?_, ?_⟩ <;> trivial))
  · intro st env w hflag hr
    unfold WishlistResource.get WishlistResource.getRemoteWishlist
    rw [hflag, hr]
    simp

/-- Witness for C6 amended: concrete remote-independence of `addItem` with
no owner identity, and the remote snapshot as mutation base with one. -/
theorem mutation_remote_independence_witness :
    (((false : Bool) && true) = false ∧
      (WishlistResource.wishApply (WishlistResource.WishOp.addItem prodB)
          ⟨some wishOneA, some wishEmpty0⟩
          { hasUser := false, reachable := true, now := 5, itemId := "z" }).returned =
        (WishlistResource.wishApply (WishlistResource.WishOp.addItem prodB)
          ⟨some wishOneA, none⟩
          { hasUser := false, reachable := true, now := 5, itemId := "z" }).returned) ∧
    (((true : Bool) && true) = true ∧
      (WishlistResource.get { localStore := some wishOneA, remoteStore := some wishEmpty0 }
          { hasUser := true, reachable := true, now := 5, itemId := "z" }).1 = wishEmpty0) :=
  ⟨⟨rfl,
    (mutation_remote_independence.1 (WishlistResource.WishOp.addItem prodB)
      (some wishOneA) (some wishEmpty0) none
      { hasUser := false, reachable := true, now := 5, itemId := "z" } rfl).1⟩,
   ⟨rfl,
    mutation_remote_independence.2
      { localStore := some wishOneA, remoteStore := some wishEmpty0 }
      { hasUser := true, reachable := true, now := 5, itemId := "z" }
      wishEmpty0 rfl rfl⟩⟩

theorem addMerge_decomp (pid : Nat) (price q : Int) (pre : List CartItem)
    (it : CartItem) (post : List CartItem)
    (hpre : ∀ x ∈ pre, ¬ (x.product.id = pid)) (hit : it.product.id = pid) :
    CartResource.addMerge pid price q (pre ++ it :: post) =
      some (pre ++ { it with quantity := it.quantity + q, price := price } :: post,
            { it with quantity := it.quantity + q, price := price }) := by
  induction pre with
  | nil => simp [CartResource.addMerge, hit]
  | cons x xs ih =>
    have hx : ¬ (x.product.id = pid) := hpre x (by simp)
    have ih' := ih (fun y hy => hpre y (by simp [hy]))
    simp [CartResource.addMerge, hx, ih']

/-! ## C9: re-add merges and retroactively reprices -/

/-- C9: adding a product whose identity already has an entry does not create
a second entry — the entry sequence keeps its length and still has exactly
one entry for that product —, the existing entry's quantity grows by the
added quantity, its stored unit price is overwritten with the incoming
product's price, and the recomputed subtotal charges all units of that
product (old and new) at the new price. -/
theorem addItem_merge_reprices
    (cart : Cart) (pre : List CartItem) (it : CartItem) (post : List CartItem)
    (p : Product) (q : Int) (env : CartResource.CartEnv)
    (hitems : cart.items = pre ++ it :: post)
    (hit : it.product.id = p.id)
    (hpre : ∀ x ∈ pre, ¬ (x.product.id = p.id))
    (hpost : ∀ x ∈ post, ¬ (x.product.id = p.id)) :
    (CartResource.addItem p q (some cart) env).returned.items =
        pre ++ { it with quantity := it.quantity + q, price := p.price } :: post ∧
    (CartResource.addItem p q (some cart) env).returned.items.length =
        cart.items.length ∧
    countCartProduct (CartResource.addItem p q (some cart) env).returned p.id = 1 ∧
    (CartResource.addItem p q (some cart) env).returned.subtotal =
        sumBy (fun x => x.price * x.quantity) pre +
        p.price * (it.quantity + q) +
        sumBy (fun x => x.price * x.quantity) post ∧
    (CartResource.addItem p q (some cart) env).events =
        [CartResource.CartEvent.itemAdded
          { it with quantity := it.quantity + q, price := p.price }
          (CartResource.addItem p q (some cart) env).returned] ∧
    (CartResource.addItem p q (some cart) env).stored =
        some (CartResource.addItem p q (some cart) env).returned := by
  have hmerge := addMerge_decomp p.id p.price q pre it post hpre hit
  simp only [CartResource.addItem, CartResource.get, hitems, hmerge,
    CartResource.updateCartTotals]
  refine ⟨by trivial, by simp, ?_, ?_, by trivial, by trivial⟩
  · unfold countCartProduct
    have hfpre : pre.filter (fun x => x.product.id == p.id) = [] := by
      rw [List.filter_eq_nil]
      intro a ha
      simpa using hpre a ha
    have hfpost : post.filter (fun x => x.product.id == p.id) = [] := by
      rw [List.filter_eq_nil]
      intro a ha
      simpa using hpost a ha
    simp [List.filter_append, List.filter_cons, hfpre, hfpost, hit]
  · rw [sumBy_append, sumBy_cons]
    simp
    omega

/-- Witness for C9: re-adding product id 1 at a new price 7 with quantity 3
onto a cart holding 2 units at price 2 keeps one entry and reprices. -/
theorem addItem_merge_reprices_witness :
    ({ id := "c", items := [{ id := "i1", product := prodA, quantity := 2, price := 2 }],
       subtotal := 4, total_items := 2, created_at := 0, updated_at := 0 } : Cart).items =
      [] ++ { id := "i1", product := prodA, quantity := 2, price := 2 } :: [] ∧
    (CartResource.addItem { id := 1, title := "alpha", price := 7 } 3
        (some { id := "c", items := [{ id := "i1", product := prodA, quantity := 2, price := 2 }],
                subtotal := 4, total_items := 2, created_at := 0, updated_at := 0 })
        { now := 9, itemId := "i2", cartId := "d" }).returned.subtotal =
      sumBy (fun x => x.price * x.quantity) ([] : List CartItem) +
        7 * (2 + 3) + sumBy (fun x => x.price * x.quantity) ([] : List CartItem) ∧
    countCartProduct
      (CartResource.addItem { id := 1, title := "alpha", price := 7 } 3
        (some { id := "c", items := [{ id := "i1", product := prodA, quantity := 2, price := 2 }],
                subtotal := 4, total_items := 2, created_at := 0, updated_at := 0 })
        { now := 9, itemId := "i2", cartId := "d" }).returned 1 = 1 :=
  ⟨rfl,
   (addItem_merge_reprices
      { id := "c", items := [{ id := "i1", product := prodA, quantity := 2, price := 2 }],
        subtotal := 4, total_items := 2, created_at := 0, updated_at := 0 }
      [] { id := "i1", product := prodA, quantity := 2, price := 2 } []
      { id := 1, title := "alpha", price := 7 } 3
      { now := 9, itemId := "i2", cartId := "d" }
      rfl rfl (by simp) (by simp)).2.2.2.1,
   (addItem_merge_reprices
      { id := "c", items := [{ id := "i1", product := prodA, quantity := 2, price := 2 }],
        subtotal := 4, total_items := 2, created_at := 0, updated_at := 0 }
      [] { id := "i1", product := prodA, quantity := 2, price := 2 } []
      { id := 1, title := "alpha", price := 7 } 3
      { now := 9, itemId := "i2", cartId := "d" }
      rfl rfl (by simp) (by simp)).2.2.1⟩

/-! ## Aggregate preservation lemmas -/

theorem cartAggOK_createEmptyCart (now : Nat) (cid : String) :
    cartAggOK (CartResource.createEmptyCart now cid) := ⟨rfl, rfl⟩

theorem cartAggOK_updateCartTotals (c : Cart) (now : Nat) :
    cartAggOK (CartResource.updateCartTotals c now) := ⟨rfl, rfl⟩

theorem cartStoreOK_some (c : Cart) (h : cartAggOK c) : cartStoreOK (some c) := by
  intro d hd
  injection hd with hcd
  exact hcd ▸ h

theorem cartAggOK_get (storage : Option Cart) (now : Nat) (cid : String)
    (h : cartStoreOK storage) : cartAggOK (CartResource.get storage now cid) := by
  cases storage with
  | none => exact cartAggOK_createEmptyCart now cid
  | some c => exact h c rfl

theorem cart_addItem_pres (p : Product) (q : Int) (storage : Option Cart)
    (env : CartResource.CartEnv) (h : cartStoreOK storage) :
    cartAggOK (CartResource.addItem p q storage env).returned ∧
    cartStoreOK (CartResource.addItem p q storage env).stored := by
  simp only [CartResource.addItem]
  split <;>
    exact ⟨cartAggOK_updateCartTotals _ _,
           cartStoreOK_some _ (cartAggOK_updateCartTotals _ _)⟩

theorem cart_removeItem_pres (itemId : String) (storage : Option Cart)
    (env : CartResource.CartEnv) (h : cartStoreOK storage) :
    cartAggOK (CartResource.removeItem itemId storage env).returned ∧
    cartStoreOK (CartResource.removeItem itemId storage env).stored := by
  simp only [CartResource.removeItem]
  split
  · exact ⟨cartAggOK_updateCartTotals _ _,
           cartStoreOK_some _ (cartAggOK_updateCartTotals _ _)⟩
  · exact ⟨cartAggOK_get storage env.now env.cartId h, h⟩

theorem cart_updateItemQuantity_pres (itemId : String) (q : Int)
    (storage : Option Cart) (env : CartResource.CartEnv) (h : cartStoreOK storage) :
    cartAggOK (CartResource.updateItemQuantity itemId q storage env).returned ∧
    cartStoreOK (CartResource.updateItemQuantity itemId q storage env).stored := by
  simp only [CartResource.updateItemQuantity]
  split
  · exact cart_removeItem_pres itemId storage env h
  · split
    · exact ⟨cartAggOK_updateCartTotals _ _,
             cartStoreOK_some _ (cartAggOK_updateCartTotals _ _)⟩
    · exact ⟨cartAggOK_get storage env.now env.cartId h, h⟩

theorem cart_removeProduct_pres (productId : Nat) (storage : Option Cart)
    (env : CartResource.CartEnv) (h : cartStoreOK storage) :
    cartAggOK (CartResource.removeProduct productId storage env).returned ∧
    cartStoreOK (CartResource.removeProduct productId storage env).stored := by
  simp only [CartResource.removeProduct]
  split
  · exact cart_removeItem_pres _ storage env h
  · exact ⟨cartAggOK_get storage env.now env.cartId h, h⟩

theorem cart_clear_pres (storage : Option Cart) (env : CartResource.CartEnv) :
    cartAggOK (CartResource.clear storage env).returned ∧
    cartStoreOK (CartResource.clear storage env).stored :=
  ⟨cartAggOK_createEmptyCart _ _,
   cartStoreOK_some _ (cartAggOK_createEmptyCart _ _)⟩

theorem cart_step_pres (op : CartResource.CartOp) (storage : Option Cart)
    (env : CartResource.CartEnv) (h : cartStoreOK storage) :
    cartAggOK (CartResource.cartApply op storage env).returned ∧
    cartStoreOK (CartResource.cartApply op storage env).stored := by
  cases op with
  | addItem p q => exact cart_addItem_pres p q storage env h
  | removeItem itemId => exact cart_removeItem_pres itemId storage env h
  | updateItemQuantity itemId q => exact cart_updateItemQuantity_pres itemId q storage env h
  | removeProduct productId => exact cart_removeProduct_pres productId storage env h
  | clear => exact cart_clear_pres storage env

theorem cartTraceOK_of_storeOK (ops : List (CartResource.CartOp × CartResource.CartEnv))
    (storage : Option Cart) (h : cartStoreOK storage) :
    CartResource.cartTraceOK ops storage := by
  induction ops generalizing storage with
  | nil => trivial
  | cons step rest ih =>
    obtain ⟨op, env⟩ := step
    obtain ⟨h1, h2⟩ := cart_step_pres op storage env h
    exact ⟨h1, h2, ih _ h2⟩

theorem wishAggOK_empty (now : Nat) :
    wishAggOK (WishlistResource.createEmptyWishlist now) := rfl

theorem wishAggOK_meta (w : Wishlist) (now : Nat) :
    wishAggOK (WishlistResource.updateWishlistMeta w now) := rfl

theorem wishStateOK_setLocal (st : WishlistResource.WishState) (u : Wishlist)
    (h : wishStateOK st) (hu : wishAggOK u) :
    wishStateOK { st with localStore := some u } := by
  refine ⟨fun w hw => ?_, fun w hw => h.2 w hw⟩
  injection hw with huw
  exact huw ▸ hu

theorem wish_save_pres (st : WishlistResource.WishState) (w : Wishlist)
    (env : WishlistResource.WishEnv) (hst : wishStateOK st) (hw : wishAggOK w) :
    wishStateOK (WishlistResource.saveToRemote st w env) := by
  unfold WishlistResource.saveToRemote
  split
  · refine ⟨fun v hv => hst.1 v hv, fun v hv => ?_⟩
    injection hv with hwv
    exact hwv ▸ hw
  · exact hst

theorem wish_get_pres (st : WishlistResource.WishState)
    (env : WishlistResource.WishEnv) (h : wishStateOK st) :
    wishAggOK (WishlistResource.get st env).1 ∧
    wishStateOK (WishlistResource.get st env).2 := by
  unfold WishlistResource.get WishlistResource.getRemoteWishlist
  cases hflag : env.hasUser && env.reachable with
  | false =>
    simp only [Bool.false_eq_true, if_neg]
    cases hloc : st.localStore with
    | none => exact ⟨wishAggOK_empty env.now, h⟩
    | some w => exact ⟨h.1 w hloc, h⟩
  | true =>
    simp only [if_pos]
    cases hr : st.remoteStore with
    | none =>
      cases hloc : st.localStore with
      | none => exact ⟨wishAggOK_empty env.now, h⟩
      | some w => exact ⟨h.1 w hloc, h⟩
    | some w =>
      have hw : wishAggOK w := h.2 w hr
      have h2 := wishStateOK_setLocal st w h hw
      rw [hr] at h2
      exact ⟨hw, h2⟩

theorem wish_addItem_pres (p : Product) (st : WishlistResource.WishState)
    (env : WishlistResource.WishEnv) (h : wishStateOK st) :
    wishAggOK (WishlistResource.addItem p st env).returned ∧
    wishStateOK (WishlistResource.addItem p st env).state := by
  have h1 := wish_get_pres st env h
  have h2 := wish_get_pres (WishlistResource.get st env).2 env h1.2
  simp only [WishlistResource.addItem, WishlistResource.hasProduct]
  split
  · exact ⟨h1.1, h2.2⟩
  · exact ⟨wishAggOK_meta _ _,
           wish_save_pres _ _ env
             (wishStateOK_setLocal _ _ h2.2 (wishAggOK_meta _ _))
             (wishAggOK_meta _ _)⟩

theorem wish_removeItem_pres (itemId : String) (st : WishlistResource.WishState)
    (env : WishlistResource.WishEnv) (h : wishStateOK st) :
    wishAggOK (WishlistResource.removeItem itemId st env).returned ∧
    wishStateOK (WishlistResource.removeItem itemId st env).state := by
  have h1 := wish_get_pres st env h
  simp only [WishlistResource.removeItem]
  exact ⟨wishAggOK_meta _ _,
         wish_save_pres _ _ env
           (wishStateOK_setLocal _ _ h1.2 (wishAggOK_meta _ _))
           (wishAggOK_meta _ _)⟩

theorem wish_removeProduct_pres (productId : Nat) (st : WishlistResource.WishState)
    (env : WishlistResource.WishEnv) (h : wishStateOK st) :
    wishAggOK (WishlistResource.removeProduct productId st env).returned ∧
    wishStateOK (WishlistResource.removeProduct productId st env).state := by
  have h1 := wish_get_pres st env h
  simp only [WishlistResource.removeProduct]
  split
  · exact wish_removeItem_pres _ _ env h1.2
  · exact ⟨h1.1, h1.2⟩

theorem wish_toggle_pres (p : Product) (st : WishlistResource.WishState)
    (env : WishlistResource.WishEnv) (h : wishStateOK st) :
    wishAggOK (WishlistResource.toggleProduct p st env).1.returned ∧
    wishStateOK (WishlistResource.toggleProduct p st env).1.state := by
  have h1 := wish_get_pres st env h
  simp only [WishlistResource.toggleProduct, WishlistResource.hasProduct]
  split
  · exact wish_removeProduct_pres _ _ env h1.2
  · exact wish_addItem_pres _ _ env h1.2

theorem wish_clear_pres (st : WishlistResource.WishState)
    (env : WishlistResource.WishEnv) (h : wishStateOK st) :
    wishAggOK (WishlistResource.clear st env).returned ∧
    wishStateOK (WishlistResource.clear st env).state := by
  simp only [WishlistResource.clear]
  exact ⟨wishAggOK_empty _,
         wish_save_pres _ _ env
           (wishStateOK_setLocal _ _ h (wishAggOK_empty _))
           (wishAggOK_empty _)⟩

theorem wish_sort_pres (le : WishlistItem → WishlistItem → Bool)
    (st : WishlistResource.WishState) (env : WishlistResource.WishEnv)
    (h : wishStateOK st) :
    wishAggOK (WishlistResource.sort le st env).returned ∧
    wishStateOK (WishlistResource.sort le st env).state := by
  have h1 := wish_get_pres st env h
  simp only [WishlistResource.sort]
  exact ⟨wishAggOK_meta _ _,
         wish_save_pres _ _ env
           (wishStateOK_setLocal _ _ h1.2 (wishAggOK_meta _ _))
           (wishAggOK_meta _ _)⟩

theorem wish_step_pres (op : WishlistResource.WishOp)
    (st : WishlistResource.WishState) (env : WishlistResource.WishEnv)
    (h : wishStateOK st) :
    wishAggOK (WishlistResource.wishApply op st env).returned ∧
    wishStateOK (WishlistResource.wishApply op st env).state := by
  cases op with
  | addItem p => exact wish_addItem_pres p st env h
  | removeItem itemId => exact wish_removeItem_pres itemId st env h
  | removeProduct productId => exact wish_removeProduct_pres productId st env h
  | toggleProduct p => exact wish_toggle_pres p st env h
  | clear => exact wish_clear_pres st env h
  | sort le => exact wish_sort_pres le st env h

theorem wishTraceOK_of_stateOK
    (ops : List (WishlistResource.WishOp × WishlistResource.WishEnv))
    (st : WishlistResource.WishState) (h : wishStateOK st) :
    WishlistResource.wishTraceOK ops st := by
  induction ops generalizing st with
  | nil => trivial
  | cons step rest ih =>
    obtain ⟨op, env⟩ := step
    obtain ⟨h1, h2⟩ := wish_step_pres op st env h
    exact ⟨h1, h2, ih _ h2⟩

/-! ## C1: aggregate purity -/

/-- C1: along every sequence of mutations of either collection engine,
starting from the initial empty stores, after every single mutation the
derived aggregates of the returned collection and of every stored copy are
the pure function of its entry sequence — for the cart `total_items` is the
sum of entry quantities and `subtotal` the sum of quantity times price, for
the wishlist `total_items` is the number of entries. -/
theorem aggregate_purity_traces :
    (∀ ops : List (CartResource.CartOp × CartResource.CartEnv),
      CartResource.cartTraceOK ops none) ∧
    (∀ ops : List (WishlistResource.WishOp × WishlistResource.WishEnv),
      WishlistResource.wishTraceOK ops ⟨none, none⟩) := by
  constructor
  · intro ops
    exact cartTraceOK_of_storeOK ops none (fun c hc => by cases hc)
  · intro ops
    refine wishTraceOK_of_stateOK ops ⟨none, none⟩ ⟨?_, ?_⟩
    · intro w hw
      cases hw
    · intro w hw
      cases hw

/-! ## Emitter lemmas -/

theorem applyActions_nil (e : EventEmitter.Emitter) :
    EventEmitter.applyActions [] e = e := rfl

theorem filter_not_contains_snoc (hs visited : List EventEmitter.HandlerId)
    (h : EventEmitter.HandlerId) (rest : List EventEmitter.HandlerId)
    (hnodup : hs.Nodup)
    (hfil : hs.filter (fun x => !(visited.contains x)) = h :: rest) :
    hs.filter (fun x => !((visited ++ [h]).contains x)) = rest := by
  have hpt : ∀ x ∈ hs, (fun x => !((visited ++ [h]).contains x)) x =
      (fun x => !(x == h) && !(visited.contains x)) x := by
    intro x _
    cases hx : x == h with
    | true =>
      have hxh : x = h := by simpa using hx
      subst hxh
      simp [List.contains, List.elem_eq_mem, List.mem_append]
    | false =>
      have hne : ¬ (x = h) := by simpa using hx
      simp [List.contains, List.elem_eq_mem, List.mem_append, hne, hx]
  rw [List.filter_congr hpt, ← List.filter_filter, hfil]
  have hrestnodup : (h :: rest).Nodup := hfil ▸ hnodup.filter _
  have hnot : h ∉ rest := (List.nodup_cons.mp hrestnodup).1
  rw [List.filter_cons]
  simp only [beq_self_eq_true, Bool.not_true, Bool.false_eq_true, if_false]
  apply List.filter_eq_self.mpr
  intro a ha
  simp only [Bool.not_eq_true', beq_eq_false_iff_ne]
  exact fun hEq => hnot (hEq ▸ ha)

theorem emitLoop_pure (behavior : EventEmitter.HandlerId → List EventEmitter.EAction)
    (topic : String) (e : EventEmitter.Emitter) (hs : List EventEmitter.HandlerId)
    (hhs : EventEmitter.getHandlers e topic = some hs) (hnodup : hs.Nodup)
    (hpure : ∀ h ∈ hs, behavior h = []) :
    ∀ (fuel : Nat) (visited log : List EventEmitter.HandlerId),
      (hs.filter (fun x => !(visited.contains x))).length ≤ fuel →
      EventEmitter.emitLoop behavior topic fuel e visited log =
        (e, log ++ hs.filter (fun x => !(visited.contains x))) := by
  intro fuel
  induction fuel with
  | zero =>
    intro visited log hlen
    have hfil : hs.filter (fun x => !(visited.contains x)) = [] :=
      List.length_eq_zero.mp (Nat.le_zero.mp hlen)
    rw [hfil]
    simp [EventEmitter.emitLoop]
  | succ n ih =>
    intro visited log hlen
    unfold EventEmitter.emitLoop
    rw [hhs]
    simp only [Option.getD_some]
    rw [find?_eq_head?_filter]
    cases hfil : hs.filter (fun x => !(visited.contains x)) with
    | nil =>
      simp [hfil]
    | cons h rest =>
      simp only [List.head?_cons]
      have hmem : h ∈ hs :=
        (List.mem_filter.mp (hfil ▸ List.mem_cons_self h rest)).1
      rw [hpure h hmem, applyActions_nil]
      have hsnoc := filter_not_contains_snoc hs visited h rest hnodup hfil
      have hlen2 : (hs.filter (fun x => !((visited ++ [h]).contains x))).length ≤ n := by
        rw [hsnoc]
        have := hfil ▸ hlen
        simpa using this
      rw [ih (visited ++ [h]) (log ++ [h]) hlen2, hsnoc]
      simp

theorem emit_pure_snapshot (behavior : EventEmitter.HandlerId → List EventEmitter.EAction)
    (topic : String) (e : EventEmitter.Emitter) (hs : List EventEmitter.HandlerId)
    (fuel : Nat) (hhs : EventEmitter.getHandlers e topic = some hs)
    (hnodup : hs.Nodup) (hpure : ∀ h ∈ hs, behavior h = [])
    (hfuel : hs.length ≤ fuel) :
    EventEmitter.emit behavior topic fuel e = (e, hs) := by
  unfold EventEmitter.emit
  have h0 : hs.filter (fun x => !(([] : List EventEmitter.HandlerId).contains x)) = hs := by
    simp
  rw [emitLoop_pure behavior topic e hs hhs hnodup hpure fuel [] [] (by rw [h0]; exact hfuel)]
  rw [h0]
  simp

/-! ## C8: notifier delivery boundary -/

/-- C8 fails as stated: on an emitter whose topic "t" holds only handler 0,
where handler 0 registers handler 1 during its own invocation, the publish
call does invoke handler 1 — the live `Set.forEach` of the source visits
values added during iteration, so a handler registered after emission
started is not excluded from that publish call. -/
theorem publish_boundary_counterexample :
    EventEmitter.getHandlers emitterT0 "t" = some [0] ∧
    (EventEmitter.emit regBehavior "t" 3 emitterT0).2 = [0, 1] ∧
    ¬ ((EventEmitter.emit regBehavior "t" 3 emitterT0).2.contains 1 = false) := by
  refine ⟨rfl, by decide, by decide⟩

/-- C8 amended: publish invokes handlers synchronously in registration
(insertion) order over the live handler set — when no running handler
mutates the subscriptions, exactly the handlers registered at the moment
publish is invoked run, in registration order; but a handler registered by
a running handler during emission is appended to the live set and is
invoked in the same publish call, as handler 1 here. -/
theorem publish_delivery_boundary :
    (∀ (behavior : EventEmitter.HandlerId → List EventEmitter.EAction)
        (topic : String) (e : EventEmitter.Emitter)
        (hs : List EventEmitter.HandlerId),
      EventEmitter.getHandlers e topic = some hs → hs.Nodup →
      (∀ h ∈ hs, behavior h = []) →
      (EventEmitter.emit behavior topic hs.length e).2 = hs) ∧
    (EventEmitter.getHandlers emitterT0 "t" = some [0] ∧
      (EventEmitter.emit regBehavior "t" 3 emitterT0).2 = [0, 1]) := by
  constructor
  · intro behavior topic e hs hhs hnodup hpure
    rw [emit_pure_snapshot behavior topic e hs hs.length hhs hnodup hpure (le_refl _)]
  · exact ⟨rfl, by decide⟩

/-- Witness for C8 amended: pure handlers [3, 7] on topic "u" are delivered
exactly and in order. -/
theorem publish_delivery_boundary_witness :
    EventEmitter.getHandlers ⟨[("u", [3, 7])]⟩ "u" = some [3, 7] ∧
    ([3, 7] : List EventEmitter.HandlerId).Nodup ∧
    (EventEmitter.emit (fun _ => []) "u" 2 ⟨[("u", [3, 7])]⟩).2 = [3, 7] :=
  ⟨rfl, by decide,
   publish_delivery_boundary.1 (fun _ => []) "u" ⟨[("u", [3, 7])]⟩ [3, 7]
     rfl (by decide) (fun _ _ => rfl)⟩

theorem find?_setEntry (l : List (String × List EventEmitter.HandlerId))
    (topic : String) (hs : List EventEmitter.HandlerId) :
    (EventEmitter.setEntry l topic hs).find? (fun p => p.1 == topic) =
      some (topic, hs) := by
  induction l with
  | nil => simp [EventEmitter.setEntry, List.find?_cons]
  | cons p rest ih =>
    obtain ⟨t, old⟩ := p
    unfold EventEmitter.setEntry
    cases ht : t == topic with
    | true => simp [List.find?_cons]
    | false => simp [List.find?_cons, ht, ih]

theorem getHandlers_setEntry (l : List (String × List EventEmitter.HandlerId))
    (topic : String) (hs : List EventEmitter.HandlerId) :
    EventEmitter.getHandlers ⟨EventEmitter.setEntry l topic hs⟩ topic = some hs := by
  unfold EventEmitter.getHandlers
  rw [find?_setEntry]
  rfl

theorem find?_none_of_not_mem_keys (l : List (String × List EventEmitter.HandlerId))
    (topic : String) (h : topic ∉ l.map (fun p => p.1)) :
    l.find? (fun p => p.1 == topic) = none := by
  induction l with
  | nil => rfl
  | cons p rest ih =>
    obtain ⟨t, old⟩ := p
    have ht : ¬ (t = topic) := fun hEq => h (by simp [hEq])
    have hrest : topic ∉ rest.map (fun p => p.1) := fun hm => h (by simp [hm])
    simp [List.find?_cons, ht, ih hrest]

theorem getHandlers_delEntry (l : List (String × List EventEmitter.HandlerId))
    (topic : String) (hkeys : (l.map (fun p => p.1)).Nodup) :
    EventEmitter.getHandlers ⟨EventEmitter.delEntry l topic⟩ topic = none := by
  unfold EventEmitter.getHandlers
  rw [show (EventEmitter.delEntry l topic).find? (fun p => p.1 == topic) = none from ?_]
  · rfl
  induction l with
  | nil => rfl
  | cons p rest ih =>
    obtain ⟨t, old⟩ := p
    unfold EventEmitter.delEntry
    cases ht : t == topic with
    | true =>
      have hteq : t = topic := by simpa using ht
      have : topic ∉ rest.map (fun p => p.1) := by
        have h2 := (List.nodup_cons.mp (show (t :: rest.map (fun p => p.1)).Nodup from hkeys)).1
        exact hteq ▸ h2
      exact find?_none_of_not_mem_keys rest topic this
    | false =>
      have hkr : (rest.map (fun p => p.1)).Nodup :=
        (List.nodup_cons.mp (show (t :: rest.map (fun p => p.1)).Nodup from hkeys)).2
      simp [List.find?_cons, ht, ih hkr]

theorem mem_keys_setEntry (l : List (String × List EventEmitter.HandlerId))
    (topic x : String) (hs : List EventEmitter.HandlerId)
    (hx : x ∈ (EventEmitter.setEntry l topic hs).map (fun p => p.1)) :
    x ∈ l.map (fun p => p.1) ∨ x = topic := by
  induction l with
  | nil =>
    simp [EventEmitter.setEntry] at hx
    exact Or.inr hx
  | cons p rest ih =>
    obtain ⟨t, old⟩ := p
    unfold EventEmitter.setEntry at hx
    cases ht : t == topic with
    | true =>
      rw [ht] at hx
      simp at hx
      cases hx with
      | inl hx => exact Or.inr hx
      | inr hx => exact Or.inl (by simp [hx])
    | false =>
      rw [ht] at hx
      simp at hx
      cases hx with
      | inl hx => exact Or.inl (by simp [hx])
      | inr hx =>
        cases ih (by simpa using hx) with
        | inl hmem => exact Or.inl (by simp; right; simpa using hmem)
        | inr heq => exact Or.inr heq

theorem keysNodup_setEntry (l : List (String × List EventEmitter.HandlerId))
    (topic : String) (hs : List EventEmitter.HandlerId)
    (hkeys : (l.map (fun p => p.1)).Nodup) :
    ((EventEmitter.setEntry l topic hs).map (fun p => p.1)).Nodup := by
  induction l with
  | nil => simp [EventEmitter.setEntry]
  | cons p rest ih =>
    obtain ⟨t, old⟩ := p
    have hnc := List.nodup_cons.mp (show (t :: rest.map (fun p => p.1)).Nodup from hkeys)
    unfold EventEmitter.setEntry
    cases ht : t == topic with
    | true =>
      have hteq : t = topic := by simpa using ht
      exact List.nodup_cons.mpr ⟨hteq ▸ hnc.1, hnc.2⟩
    | false =>
      have htne : ¬ (t = topic) := by simpa using ht
      refine List.nodup_cons.mpr ⟨?_, ih hnc.2⟩
      intro hmem
      cases mem_keys_setEntry rest topic t hs hmem with
      | inl hmem2 => exact hnc.1 hmem2
      | inr heq => exact htne heq

theorem on'_unfold (e : EventEmitter.Emitter) (topic : String)
    (h : EventEmitter.HandlerId) :
    EventEmitter.on' e topic h =
      match EventEmitter.getHandlers e topic with
      | none => ⟨EventEmitter.setEntry e.events topic [h]⟩
      | some hs =>
        if hs.contains h then e
        else ⟨EventEmitter.setEntry e.events topic (hs ++ [h])⟩ := rfl

theorem on'_idem (e : EventEmitter.Emitter) (topic : String)
    (h : EventEmitter.HandlerId) :
    EventEmitter.on' (EventEmitter.on' e topic h) topic h =
      EventEmitter.on' e topic h := by
  cases hg : EventEmitter.getHandlers e topic with
  | none =>
    have h1 : EventEmitter.on' e topic h =
        ⟨EventEmitter.setEntry e.events topic [h]⟩ := by
      rw [on'_unfold, hg]
    rw [h1, on'_unfold, getHandlers_setEntry]
    simp
  | some hs =>
    cases hc : hs.contains h with
    | true =>
      have h1 : EventEmitter.on' e topic h = e := by
        rw [on'_unfold, hg]
        simp only [hc, if_true]
      rw [h1, on'_unfold, hg]
      simp only [hc, if_true]
    | false =>
      have h1 : EventEmitter.on' e topic h =
          ⟨EventEmitter.setEntry e.events topic (hs ++ [h])⟩ := by
        rw [on'_unfold, hg]
        simp only [hc, Bool.false_eq_true, if_false]
      have hc2 : (hs ++ [h]).contains h = true := by simp
      rw [h1, on'_unfold, getHandlers_setEntry]
      simp only [hc2, if_true]

theorem on'_handler_facts (e : EventEmitter.Emitter) (topic : String)
    (h : EventEmitter.HandlerId)
    (hnodup : ∀ hs, EventEmitter.getHandlers e topic = some hs → hs.Nodup) :
    ∃ hs1, EventEmitter.getHandlers (EventEmitter.on' e topic h) topic = some hs1 ∧
      hs1.Nodup ∧ hs1.count h = 1 ∧ h ∈ hs1 := by
  cases hg : EventEmitter.getHandlers e topic with
  | none =>
    refine ⟨[h], ?_, by simp, by simp, by simp⟩
    rw [on'_unfold, hg]
    exact getHandlers_setEntry _ _ _
  | some hs =>
    have hnd := hnodup hs hg
    cases hc : hs.contains h with
    | true =>
      have hmem : h ∈ hs := by simpa using hc
      refine ⟨hs, ?_, hnd, ?_, hmem⟩
      · rw [on'_unfold, hg]
        simp only [hc, if_true]
        exact hg
      · exact le_antisymm (List.nodup_iff_count_le_one.mp hnd h)
          (List.count_pos_iff_mem.mpr hmem)
    | false =>
      have hmem : h ∉ hs := by simpa using hc
      refine ⟨hs ++ [h], ?_, ?_, ?_, by simp⟩
      · rw [on'_unfold, hg]
        simp only [hc, Bool.false_eq_true, if_false]
        exact getHandlers_setEntry _ _ _
      · exact List.nodup_append.mpr ⟨hnd, by simp,
          fun a ha hb => by simp at hb; exact hmem (hb ▸ ha)⟩
      · rw [List.count_append]
        have hz : hs.count h = 0 := List.count_eq_zero.mpr hmem
        simp [hz]

theorem on'_keysNodup (e : EventEmitter.Emitter) (topic : String)
    (h : EventEmitter.HandlerId)
    (hkeys : (e.events.map (fun p => p.1)).Nodup) :
    ((EventEmitter.on' e topic h).events.map (fun p => p.1)).Nodup := by
  cases hg : EventEmitter.getHandlers e topic with
  | none =>
    rw [on'_unfold, hg]
    exact keysNodup_setEntry _ _ _ hkeys
  | some hs =>
    cases hc : hs.contains h with
    | true =>
      rw [on'_unfold, hg]
      simp only [hc, if_true]
      exact hkeys
    | false =>
      rw [on'_unfold, hg]
      simp only [hc, Bool.false_eq_true, if_false]
      exact keysNodup_setEntry _ _ _ hkeys

/-! ## C10: per-(topic, handler) subscription idempotence -/

/-- C10: because handlers live in a per-topic Set, registering the same
handler twice on the same topic equals registering it once: the emitter
states are equal, the handler appears exactly once in the topic's handler
list (so `listenerCount` counts it once), a publish with passive handlers
invokes it exactly once, and a single `off` removes it entirely. -/
theorem subscribe_idempotent (e : EventEmitter.Emitter) (topic : String)
    (h : EventEmitter.HandlerId)
    (hkeys : (e.events.map (fun p => p.1)).Nodup)
    (hnodup : ∀ hs, EventEmitter.getHandlers e topic = some hs → hs.Nodup) :
    EventEmitter.on' (EventEmitter.on' e topic h) topic h =
      EventEmitter.on' e topic h ∧
    (∀ hs2, EventEmitter.getHandlers
        (EventEmitter.on' (EventEmitter.on' e topic h) topic h) topic = some hs2 →
      hs2.count h = 1 ∧
      (EventEmitter.emit (fun _ => []) topic hs2.length
        (EventEmitter.on' (EventEmitter.on' e topic h) topic h)).2.count h = 1) ∧
    ((EventEmitter.getHandlers
        (EventEmitter.off (EventEmitter.on' (EventEmitter.on' e topic h) topic h)
          topic h) topic).getD []).contains h = false := by
  obtain ⟨hs1, hget, hnd1, hcount1, hmem1⟩ := on'_handler_facts e topic h hnodup
  have hidem := on'_idem e topic h
  refine ⟨hidem, ?_, ?_⟩
  · intro hs2 hg2
    rw [hidem, hget] at hg2
    injection hg2 with h12
    subst h12
    refine ⟨hcount1, ?_⟩
    rw [hidem,
      emit_pure_snapshot (fun _ => []) topic _ hs1 hs1.length hget hnd1
        (fun _ _ => rfl) (le_refl _)]
    exact hcount1
  · rw [hidem]
    unfold EventEmitter.off
    rw [hget]
    have hne : h ∉ hs1.erase h := hnd1.not_mem_erase
    cases hemp : (hs1.erase h).isEmpty with
    | true =>
      simp only [hemp, if_true]
      rw [getHandlers_delEntry _ topic (on'_keysNodup e topic h hkeys)]
      rfl
    | false =>
      simp only [hemp, Bool.false_eq_true, if_false]
      rw [getHandlers_setEntry]
      simpa using hne

/-- Witness for C10: double registration of handler 5 on topic "t" of the
empty emitter. -/
theorem subscribe_idempotent_witness :
    EventEmitter.on' (EventEmitter.on' ⟨[]⟩ "t" 5) "t" 5 =
      EventEmitter.on' ⟨[]⟩ "t" 5 ∧
    ((EventEmitter.getHandlers
        (EventEmitter.off (EventEmitter.on' (EventEmitter.on' ⟨[]⟩ "t" 5) "t" 5)
          "t" 5) "t").getD []).contains 5 = false :=
  have hbase := subscribe_idempotent ⟨[]⟩ "t" 5 (by simp)
    (fun hs hg => Option.noConfusion hg)
  ⟨hbase.1, hbase.2.2⟩

/-! ## Toggle lemmas -/

theorem toggle_absent (p : Product) (st : WishlistResource.WishState)
    (env : WishlistResource.WishEnv) (upd : Wishlist) (newItem : WishlistItem)
    (hnew : newItem = { id := env.itemId, product := p, added_at := env.now })
    (hupd : upd = WishlistResource.updateWishlistMeta
      { (WishlistResource.get st env).1 with
        items := (WishlistResource.get st env).1.items ++ [newItem] } env.now)
    (habs : containsProduct (WishlistResource.get st env).1 p.id = false) :
    WishlistResource.toggleProduct p st env =
      ({ returned := upd,
         state := WishlistResource.saveToRemote
           { (WishlistResource.get st env).2 with localStore := some upd } upd env,
         events := [WishlistResource.WishEvent.itemAdded newItem upd] }, true) := by
  subst hnew hupd
  unfold WishlistResource.toggleProduct WishlistResource.addItem
    WishlistResource.hasProduct
  simp only [wish_get_idem]
  have hc : ((WishlistResource.get st env).1.items.any
      (fun item => item.product.id == p.id)) = false := habs
  simp only [hc, Bool.false_eq_true, if_false]

theorem toggle_present (p : Product) (st : WishlistResource.WishState)
    (env : WishlistResource.WishEnv) (it : WishlistItem)
    (hfind : (WishlistResource.get st env).1.items.find?
      (fun item => item.product.id == p.id) = some it) :
    WishlistResource.toggleProduct p st env =
      ({ returned := WishlistResource.updateWishlistMeta
           { (WishlistResource.get st env).1 with
             items := (WishlistResource.get st env).1.items.filter
               (fun item => !(item.id == it.id)) } env.now,
         state := WishlistResource.saveToRemote
           { (WishlistResource.get st env).2 with
             localStore := some (WishlistResource.updateWishlistMeta
               { (WishlistResource.get st env).1 with
                 items := (WishlistResource.get st env).1.items.filter
                   (fun item => !(item.id == it.id)) } env.now) }
           (WishlistResource.updateWishlistMeta
             { (WishlistResource.get st env).1 with
               items := (WishlistResource.get st env).1.items.filter
                 (fun item => !(item.id == it.id)) } env.now) env,
         events := [WishlistResource.WishEvent.itemRemoved it.id
           (WishlistResource.updateWishlistMeta
             { (WishlistResource.get st env).1 with
               items := (WishlistResource.get st env).1.items.filter
                 (fun item => !(item.id == it.id)) } env.now)] }, false) := by
  have hpres : ((WishlistResource.get st env).1.items.any
      (fun item => item.product.id == p.id)) = true := by
    rw [List.any_eq_true]
    have h1 := List.find?_some hfind
    exact ⟨it, List.mem_of_find?_eq_some hfind, h1⟩
  unfold WishlistResource.toggleProduct WishlistResource.removeProduct
    WishlistResource.removeItem WishlistResource.hasProduct
  simp only [wish_get_idem, hpres, if_true, hfind]

theorem filter_pid_append (items : List WishlistItem) (p : Product)
    (newItem : WishlistItem) (hpid : (newItem.product.id == p.id) = true)
    (habs : items.any (fun item => item.product.id == p.id) = false) :
    (items ++ [newItem]).filter (fun item => item.product.id == p.id) =
      [newItem] := by
  rw [List.filter_append, List.filter_eq_nil.mpr (List.any_eq_false.mp habs)]
  simp [List.filter_cons, hpid]

theorem any_pid_filter_erase (items : List WishlistItem) (p : Product)
    (it : WishlistItem)
    (hnodup : (items.map (fun i => i.product.id)).Nodup)
    (hfind : items.find? (fun i => i.product.id == p.id) = some it) :
    (items.filter (fun i => !(i.id == it.id))).any
      (fun i => i.product.id == p.id) = false := by
  rw [List.any_eq_false]
  intro x hx hxpid
  obtain ⟨hxmem, hxkeep⟩ := List.mem_filter.mp hx
  have hitmem := List.mem_of_find?_eq_some hfind
  have hitpid := List.find?_some hfind
  have hxit : x = it := by
    refine List.inj_on_of_nodup_map hnodup hxmem hitmem ?_
    have e1 : x.product.id = p.id := by simpa using hxpid
    have e2 : it.product.id = p.id := by simpa using hitpid
    rw [e1, e2]
  rw [hxit] at hxkeep
  simp at hxkeep

theorem nodup_pid_append (items : List WishlistItem) (p : Product)
    (newItem : WishlistItem) (hpid : newItem.product.id = p.id)
    (hnodup : (items.map (fun i => i.product.id)).Nodup)
    (habs : items.any (fun item => item.product.id == p.id) = false) :
    ((items ++ [newItem]).map (fun i => i.product.id)).Nodup := by
  rw [List.map_append]
  refine List.nodup_append.mpr ⟨hnodup, by simp, ?_⟩
  intro a ha hb
  simp only [List.map_cons, List.map_nil, List.mem_singleton] at hb
  obtain ⟨i, himem, hieq⟩ := List.mem_map.mp ha
  have hall := List.any_eq_false.mp habs i himem
  apply hall
  rw [hb, hpid] at hieq
  simpa using hieq

theorem nodup_pid_filter (items : List WishlistItem)
    (q : WishlistItem → Bool)
    (hnodup : (items.map (fun i => i.product.id)).Nodup) :
    ((items.filter q).map (fun i => i.product.id)).Nodup :=
  ((List.filter_sublist items).map (fun i => i.product.id)).nodup hnodup

theorem get_after_save_fst (s : WishlistResource.WishState) (u : Wishlist)
    (env env2 : WishlistResource.WishEnv)
    (hflag : (env2.hasUser && env2.reachable) = (env.hasUser && env.reachable)) :
    (WishlistResource.get
      (WishlistResource.saveToRemote { s with localStore := some u } u env)
      env2).1 = u := by
  unfold WishlistResource.saveToRemote WishlistResource.get
    WishlistResource.getRemoteWishlist
  cases hv : env.hasUser && env.reachable with
  | true =>
    rw [hv] at hflag
    simp [hflag]
  | false =>
    rw [hv] at hflag
    simp [hflag]

/-! ## C5: toggle exclusivity -/

/-- C5: with the data-model invariant that product identities are unique in
the collection read by the call, `toggleProduct` on an absent product adds
it so it is present exactly once and reports `added = true` with exactly one
event; on a present product it removes it so it is absent and reports
`added = false` with exactly one event — exactly one of add/remove per call,
never both and never neither; and two sequential toggles (with the same
owner/reachability configuration) restore the original membership state. -/
theorem toggle_exclusivity (p : Product) (st : WishlistResource.WishState)
    (env env2 : WishlistResource.WishEnv)
    (hnodup : ((WishlistResource.get st env).1.items.map
      (fun i => i.product.id)).Nodup)
    (hflag : (env2.hasUser && env2.reachable) = (env.hasUser && env.reachable)) :
    (containsProduct (WishlistResource.get st env).1 p.id = false →
      (WishlistResource.toggleProduct p st env).2 = true ∧
      countProduct (WishlistResource.toggleProduct p st env).1.returned p.id = 1 ∧
      (WishlistResource.toggleProduct p st env).1.events.length = 1) ∧
    (containsProduct (WishlistResource.get st env).1 p.id = true →
      (WishlistResource.toggleProduct p st env).2 = false ∧
      containsProduct (WishlistResource.toggleProduct p st env).1.returned p.id
        = false ∧
      (WishlistResource.toggleProduct p st env).1.events.length = 1) ∧
    containsProduct
      (WishlistResource.toggleProduct p
        (WishlistResource.toggleProduct p st env).1.state env2).1.returned p.id =
      containsProduct (WishlistResource.get st env).1 p.id := by
  cases hc : containsProduct (WishlistResource.get st env).1 p.id with
  | false =>
    have ht1 := toggle_absent p st env
      (WishlistResource.updateWishlistMeta
        { (WishlistResource.get st env).1 with
          items := (WishlistResource.get st env).1.items ++
            [{ id := env.itemId, product := p, added_at := env.now }] } env.now)
      { id := env.itemId, product := p, added_at := env.now } rfl rfl hc
    have hcount : countProduct
        (WishlistResource.updateWishlistMeta
          { (WishlistResource.get st env).1 with
            items := (WishlistResource.get st env).1.items ++
              [{ id := env.itemId, product := p, added_at := env.now }] } env.now)
        p.id = 1 := by
      unfold countProduct WishlistResource.updateWishlistMeta
      rw [filter_pid_append _ p _ (by simp) hc]
      rfl
    refine ⟨?_, ?_, ?_⟩
    · intro _
      rw [ht1]
      exact ⟨rfl, hcount, rfl⟩
    · intro hcon
      exact Bool.noConfusion hcon
    · have hnodup2 : ((WishlistResource.updateWishlistMeta
          { (WishlistResource.get st env).1 with
            items := (WishlistResource.get st env).1.items ++
              [{ id := env.itemId, product := p, added_at := env.now }] }
          env.now).items.map (fun i => i.product.id)).Nodup :=
        nodup_pid_append _ p _ rfl hnodup hc
      rw [ht1]
      have hbase2 := get_after_save_fst (WishlistResource.get st env).2
        (WishlistResource.updateWishlistMeta
          { (WishlistResource.get st env).1 with
            items := (WishlistResource.get st env).1.items ++
              [{ id := env.itemId, product := p, added_at := env.now }] } env.now)
        env env2 hflag
      have hany2 : ((WishlistResource.get
          (WishlistResource.saveToRemote
            { (WishlistResource.get st env).2 with
              localStore := some (WishlistResource.updateWishlistMeta
                { (WishlistResource.get st env).1 with
                  items := (WishlistResource.get st env).1.items ++
                    [{ id := env.itemId, product := p, added_at := env.now }] }
                env.now) }
            (WishlistResource.updateWishlistMeta
              { (WishlistResource.get st env).1 with
                items := (WishlistResource.get st env).1.items ++
                  [{ id := env.itemId, product := p, added_at := env.now }] }
              env.now) env)
          env2).1.items.any (fun i => i.product.id == p.id)) = true := by
        rw [hbase2]
        simp [WishlistResource.updateWishlistMeta, List.any_append]
      have hfindsome : ((WishlistResource.get
          (WishlistResource.saveToRemote
            { (WishlistResource.get st env).2 with
              localStore := some (WishlistResource.updateWishlistMeta
                { (WishlistResource.get st env).1 with
                  items := (WishlistResource.get st env).1.items ++
                    [{ id := env.itemId, product := p, added_at := env.now }] }
                env.now) }
            (WishlistResource.updateWishlistMeta
              { (WishlistResource.get st env).1 with
                items := (WishlistResource.get st env).1.items ++
                  [{ id := env.itemId, product := p, added_at := env.now }] }
              env.now) env)
          env2).1.items.find? (fun i => i.product.id == p.id)).isSome = true := by
        rw [List.find?_isSome]
        exact List.any_eq_true.mp hany2
      obtain ⟨it2, hfind2⟩ := Option.isSome_iff_exists.mp hfindsome
      have ht2 := toggle_present p _ env2 it2 hfind2
      rw [ht2]
      show ((WishlistResource.get _ env2).1.items.filter
        (fun i => !(i.id == it2.id))).any (fun i => i.product.id == p.id) = false
      rw [hbase2] at hfind2 ⊢
      exact any_pid_filter_erase _ p it2 hnodup2 hfind2
  | true =>
    have hfindsome1 : ((WishlistResource.get st env).1.items.find?
        (fun i => i.product.id == p.id)).isSome = true := by
      rw [List.find?_isSome]
      exact List.any_eq_true.mp hc
    obtain ⟨it, hfind⟩ := Option.isSome_iff_exists.mp hfindsome1
    have ht1 := toggle_present p st env it hfind
    have hgone : ((WishlistResource.get st env).1.items.filter
        (fun i => !(i.id == it.id))).any (fun i => i.product.id == p.id) = false :=
      any_pid_filter_erase _ p it hnodup hfind
    refine ⟨?_, ?_, ?_⟩
    · intro hcon
      exact Bool.noConfusion hcon
    · intro _
      rw [ht1]
      exact ⟨rfl, hgone, rfl⟩
    · rw [ht1]
      have hbase2 := get_after_save_fst (WishlistResource.get st env).2
        (WishlistResource.updateWishlistMeta
          { (WishlistResource.get st env).1 with
            items := (WishlistResource.get st env).1.items.filter
              (fun i => !(i.id == it.id)) } env.now)
        env env2 hflag
      have habs2 : containsProduct
          (WishlistResource.get
            (WishlistResource.saveToRemote
              { (WishlistResource.get st env).2 with
                localStore := some (WishlistResource.updateWishlistMeta
                  { (WishlistResource.get st env).1 with
                    items := (WishlistResource.get st env).1.items.filter
                      (fun i => !(i.id == it.id)) } env.now) }
              (WishlistResource.updateWishlistMeta
                { (WishlistResource.get st env).1 with
                  items := (WishlistResource.get st env).1.items.filter
                    (fun i => !(i.id == it.id)) } env.now) env)
            env2).1 p.id = false := by
        unfold containsProduct
        rw [hbase2]
        exact hgone
      have ht2 := toggle_absent p _ env2
        (WishlistResource.updateWishlistMeta
          { (WishlistResource.get
              (WishlistResource.saveToRemote
                { (WishlistResource.get st env).2 with
                  localStore := some (WishlistResource.updateWishlistMeta
                    { (WishlistResource.get st env).1 with
                      items := (WishlistResource.get st env).1.items.filter
                        (fun i => !(i.id == it.id)) } env.now) }
                (WishlistResource.updateWishlistMeta
                  { (WishlistResource.get st env).1 with
                    items := (WishlistResource.get st env).1.items.filter
                      (fun i => !(i.id == it.id)) } env.now) env)
              env2).1 with
            items := (WishlistResource.get
              (WishlistResource.saveToRemote
                { (WishlistResource.get st env).2 with
                  localStore := some (WishlistResource.updateWishlistMeta
                    { (WishlistResource.get st env).1 with
                      items := (WishlistResource.get st env).1.items.filter
                        (fun i => !(i.id == it.id)) } env.now) }
                (WishlistResource.updateWishlistMeta
                  { (WishlistResource.get st env).1 with
                    items := (WishlistResource.get st env).1.items.filter
                      (fun i => !(i.id == it.id)) } env.now) env)
              env2).1.items ++
              [{ id := env2.itemId, product := p, added_at := env2.now }] }
          env2.now)
        { id := env2.itemId, product := p, added_at := env2.now } rfl rfl habs2
      rw [ht2]
      show ((WishlistResource.get _ env2).1.items ++
        [({ id := env2.itemId, product := p, added_at := env2.now } : WishlistItem)]).any
          (fun i => i.product.id == p.id) = true
      rw [List.any_append]
      simp

/-- Witness for C5: toggling product 1 on the empty wishlist adds it exactly
once; toggling on a wishlist that holds it removes it; a double toggle on
the empty wishlist restores absence. -/
theorem toggle_exclusivity_witness :
    (containsProduct (WishlistResource.get ⟨none, none⟩
        { hasUser := false, reachable := false, now := 1, itemId := "w1" }).1
        prodA.id = false ∧
      (WishlistResource.toggleProduct prodA ⟨none, none⟩
        { hasUser := false, reachable := false, now := 1, itemId := "w1" }).2 = true ∧
      countProduct (WishlistResource.toggleProduct prodA ⟨none, none⟩
        { hasUser := false, reachable := false, now := 1, itemId := "w1" }).1.returned
        prodA.id = 1) ∧
    (containsProduct (WishlistResource.get ⟨some wishOneA, none⟩
        { hasUser := false, reachable := false, now := 1, itemId := "w1" }).1
        prodA.id = true ∧
      containsProduct (WishlistResource.toggleProduct prodA ⟨some wishOneA, none⟩
        { hasUser := false, reachable := false, now := 1, itemId := "w1" }).1.returned
        prodA.id = false) ∧
    containsProduct
      (WishlistResource.toggleProduct prodA
        (WishlistResource.toggleProduct prodA ⟨none, none⟩
          { hasUser := false, reachable := false, now := 1, itemId := "w1" }).1.state
        { hasUser := false, reachable := false, now := 2, itemId := "w2" }).1.returned
      prodA.id =
      containsProduct (WishlistResource.get ⟨none, none⟩
        { hasUser := false, reachable := false, now := 1, itemId := "w1" }).1
        prodA.id :=
  have habsent := toggle_exclusivity prodA ⟨none, none⟩
    { hasUser := false, reachable := false, now := 1, itemId := "w1" }
    { hasUser := false, reachable := false, now := 2, itemId := "w2" }
    (by decide) (by decide)
  have hpresent := toggle_exclusivity prodA ⟨some wishOneA, none⟩
    { hasUser := false, reachable := false, now := 1, itemId := "w1" }
    { hasUser := false, reachable := false, now := 2, itemId := "w2" }
    (by decide) (by decide)
  ⟨⟨by decide, (habsent.1 (by decide)).1, (habsent.1 (by decide)).2.1⟩,
   ⟨by decide, (hpresent.2.1 (by decide)).2.1⟩,
   habsent.2.2⟩
